import Mathlib

/-!
Shallow embedding of the recording / packaging / streaming core of the
EyeTrackerLabeler repository, together with proofs of the behavioural
claims about it.  Each definition mirrors one Python function or state
fragment of the source; the theorems at the end of the file settle the
claims about those functions.
-/

namespace EyeTracker

/-! ## String helpers

These mirror the Python string primitives used by the source
(`str.endswith`, `str.startswith`, `str.lower`, `in`, zero-padded
formatting).  Strings are handled through their character lists so that
all operations compute by structural recursion. -/

/-- Python `s.endswith(suffix)`. -/
def strEndsWith (s suffix : String) : Bool :=
  suffix.data.isSuffixOf s.data

/-- Python `s.startswith(pre)`. -/
def strStartsWith (s pre : String) : Bool :=
  pre.data.isPrefixOf s.data

/-- Python `s.lower()` (ASCII-faithful; the filenames involved are ASCII). -/
def strToLower (s : String) : String :=
  ⟨s.data.map Char.toLower⟩

/-- Python `c in s` for a single character. -/
def strContainsChar (s : String) (c : Char) : Bool :=
  s.data.contains c

/-- Python `f"{n:0{width}d}"` for a natural number: decimal digits of `n`
left-padded with zeros to `width`. -/
def padZeros (width : Nat) (n : Nat) : String :=
  ⟨List.replicate (width - (Nat.repr n).length) '0'⟩ ++ Nat.repr n

/-! ## `RecordingSession` (src/data/recording.py)

The session state carries the fields the Python object mutates, plus the
relative paths of the files currently present in the session folder on
disk (the folder is what `os.walk` traverses in `create_package`). -/

structure SessionState where
  username : String
  email : String
  session_folder : String
  /-- Field `start_time`, as seconds since some epoch; `none` before `start_session`. -/
  start_time : Option Nat
  image_count : Nat
  /-- Relative paths (to the session folder) of the files in the folder. -/
  files : List String
deriving Repr, DecidableEq

/-- Outcome of the `cv2.imwrite` call inside `save_image`:
it can succeed, return `False` (soft failure), or raise (caught by the
surrounding `try`). -/
inductive WriteOutcome
  | ok
  | writeFail
  | exn
deriving Repr, DecidableEq

/-- The filename built by `RecordingSession.save_image`:
`f"img_{timestamp}_{self.image_count:06d}{suffix}_240x240.jpg"`. -/
def saveImageFilename (timestamp : String) (count : Nat) (suffix : String) : String :=
  "img_" ++ timestamp ++ "_" ++ padZeros 6 count ++ suffix ++ "_240x240.jpg"

structure SaveResult where
  /-- the boolean returned by `save_image` -/
  returned : Bool
  state : SessionState
  /-- full path of the file written, when one was -/
  written : Option String
deriving Repr, DecidableEq

/-- Method `RecordingSession.save_image(image, suffix)`.  On `imwrite` success the
counter advances and the file appears in the folder; on soft failure or a
caught exception the method returns `False` and the state is untouched. -/
def save_image (st : SessionState) (timestamp : String) (suffix : String)
    (o : WriteOutcome) : SaveResult :=
  let filename := saveImageFilename timestamp st.image_count suffix
  let filepath := st.session_folder ++ "/" ++ filename
  match o with
  | .exn => ⟨false, st, none⟩
  | .writeFail => ⟨false, st, none⟩
  | .ok => ⟨true,
      { st with
        image_count := st.image_count + 1
        files := st.files ++ [filename] },
      some filepath⟩

/-- The filter `file.lower().endswith('.jpg')` applied by the packaging
walk.  The source applies it to the basename; this is equivalent on the
full relative path because `".jpg"` contains no path separator. -/
def isJpgFile (relpath : String) : Bool :=
  strEndsWith (strToLower relpath) ".jpg"

/-- Python `int(duration.total_seconds() / 60)`: elapsed whole minutes, `0` when
`start_time` is unset. -/
def durationMinutes (start_time : Option Nat) (now : Nat) : Nat :=
  match start_time with
  | none => 0
  | some t => (now - t) / 60

/-- Duration string of `RecordingSession.create_package`:
`f"{duration_minutes}min" if duration_minutes > 0 else "unknown"`. -/
def sessionDurationStr (d : Nat) : String :=
  if d > 0 then Nat.repr d ++ "min" else "unknown"

/-- The archive filename built by `RecordingSession.create_package`. -/
def sessionZipFilename (username : String) (count : Nat) (d : Nat) : String :=
  username ++ "_" ++ Nat.repr count ++ "pics_" ++ sessionDurationStr d ++ ".zip"

structure PackageResult where
  zip_filename : String
  /-- archive member names (arcnames), in insertion order -/
  entries : List String
  /-- whether `shutil.rmtree` removed the session folder -/
  folderRemoved : Bool
deriving Repr, DecidableEq

/-- Method `RecordingSession.create_package()`.  Returns `none` when
`image_count == 0`, or when any I/O step raises (`io_ok = false`), in
which case the folder is left intact.  On success the archive holds the
`.jpg` files of the folder (relative paths preserved) followed by the
`recording_info.json` written with `writestr`, and the folder is removed. -/
def create_package (st : SessionState) (now : Nat) (io_ok : Bool) :
    Option PackageResult :=
  if st.image_count = 0 then none
  else if io_ok then
    some
      { zip_filename :=
          sessionZipFilename st.username st.image_count
            (durationMinutes st.start_time now)
        entries := st.files.filter (fun f => isJpgFile f) ++ ["recording_info.json"]
        folderRemoved := true }
  else none

/-! ## Packaging in `recorder_app.py`

`PaperTrackerRecorder.create_recording_package` and
`create_multi_stage_package` rebuild the same archive logic but derive the
duration string differently: `f"{duration_minutes}min"` whenever
`session_start_time` is set (including zero minutes), `"unknown"` only
when it is unset. -/

def recorderDurationStr (start_time : Option Nat) (now : Nat) : String :=
  match start_time with
  | some t => Nat.repr ((now - t) / 60) ++ "min"
  | none => "unknown"

/-- Archive filename in `PaperTrackerRecorder.create_recording_package`. -/
def recorderZipFilename (username : String) (count : Nat)
    (start_time : Option Nat) (now : Nat) : String :=
  username ++ "_" ++ Nat.repr count ++ "pics_" ++ recorderDurationStr start_time now ++ ".zip"

/-- Archive filename in `PaperTrackerRecorder.create_multi_stage_package`
(the `eyedata` variant). -/
def multiStageZipFilename (username : String) (count : Nat)
    (start_time : Option Nat) (now : Nat) : String :=
  username ++ "_eyedata_" ++ Nat.repr count ++ "pics_" ++ recorderDurationStr start_time now ++ ".zip"

/-- The filename built by `PaperTrackerRecorder.save_current_image`:
`f"img_{timestamp}_{self.recording_count:06d}.jpg"`. -/
def saveCurrentImageFilename (timestamp : String) (count : Nat) : String :=
  "img_" ++ timestamp ++ "_" ++ padZeros 6 count ++ ".jpg"

/-! ## Multi-stage capture state machine (recorder_app.py)

`PaperTrackerRecorder` drives the multi-stage recording with Qt timers:
`stage_timer` ticks call `stage_capture_image`, the `VoiceGuide` thread's
`finished` signal calls `start_stage_recording`, and the 2-second
`QTimer.singleShot` scheduled by `complete_current_stage` calls
`start_stage(current_stage + 1)`.  The combination of
`is_multi_stage_recording`, `current_stage`, and which timer is running
is captured by a phase; every event handler below is a transcription of
the corresponding Python method. -/

/-- One entry of `self.recording_stages` (the fields the sequencer reads). -/
structure Stage where
  name : String
  interval_ms : Nat
  target_count : Nat
deriving Repr, DecidableEq

inductive StagePhase
  /-- State after `start_stage idx` ran: voice guidance for stage `idx` is playing,
  `stage_timer` stopped. -/
  | guidance (idx : Nat)
  /-- State after `start_stage_recording idx` ran: `stage_timer` runs for stage `idx`. -/
  | capturing (idx : Nat)
  /-- State after `complete_current_stage` ran for stage `idx`: timer stopped, the
  2-second single-shot advancing to `idx + 1` is pending. -/
  | stagePause (idx : Nat)
  /-- State after `complete_multi_stage_recording` ran: `is_multi_stage_recording` is
  `False` and all timers are stopped. -/
  | complete
  /-- State after `stop_multi_stage_recording` ran. -/
  | stopped
deriving Repr, DecidableEq

structure StageRun where
  plan : List Stage
  phase : StagePhase
  /-- Counter `self.stage_recording_count` -/
  stageCount : Nat
  /-- Counter `self.recording_count`; it advances exactly when
  `save_stage_image` runs to completion (the write's boolean result is
  ignored by the source, so this counts write attempts that did not
  raise, not confirmed files). -/
  totalCount : Nat
deriving Repr, DecidableEq

/-- Events delivered to the recorder while a multi-stage run is live. -/
inductive StageEv
  /-- a `stage_timer` timeout; `hasFrame` is true when the cached
  `current_image` is not `None` and the `cv2.imwrite` call inside
  `save_stage_image` does not raise — exactly the condition under which
  the counters advance.  The write's boolean return is ignored by the
  source, so a soft write failure still advances the counters; and the
  cache holds whatever frame arrived last and is never cleared while
  recording, so `hasFrame` does not mean a fresh frame was delivered
  (see the `RecorderRun` layer below, which separates the two). -/
  | tick (hasFrame : Bool)
  /-- the voice-guide `finished` signal (`start_stage_recording`). -/
  | guidanceDone
  /-- the 2-second single-shot after a stage completes (`start_stage (idx+1)`). -/
  | pauseDone
  /-- the user pressing stop (`stop_multi_stage_recording`). -/
  | stop
deriving Repr, DecidableEq

/-- Method `start_stage(idx)`: at or past the end of the plan it calls
`complete_multi_stage_recording`; otherwise it resets the stage counter
and starts the guidance step. -/
def startStage (s : StageRun) (idx : Nat) : StageRun :=
  if s.plan.length ≤ idx then { s with phase := .complete }
  else { s with phase := .guidance idx, stageCount := 0 }

/-- One step of the multi-stage machine.  `tick` transcribes
`stage_capture_image` (early return unless a stage is actively capturing;
save, then complete the stage once `stage_recording_count` reaches the
target); `guidanceDone` transcribes the `finished` hookup to
`start_stage_recording`; `pauseDone` transcribes the single-shot call to
`start_stage(current_stage + 1)`; `stop` transcribes
`stop_multi_stage_recording`.  Events whose timer or thread is not
running in the current phase do not occur and are no-ops. -/
def stageStep (s : StageRun) (e : StageEv) : StageRun :=
  match s.phase, e with
  | .capturing idx, .tick hasFrame =>
    match s.plan.get? idx with
    | none => s
    | some stage =>
      let sc' := if hasFrame then s.stageCount + 1 else s.stageCount
      let tc' := if hasFrame then s.totalCount + 1 else s.totalCount
      if stage.target_count ≤ sc' then
        { s with phase := .stagePause idx, stageCount := sc', totalCount := tc' }
      else
        { s with stageCount := sc', totalCount := tc' }
  | .guidance idx, .guidanceDone => { s with phase := .capturing idx }
  | .stagePause idx, .pauseDone => startStage s (idx + 1)
  | .stopped, .stop => s
  | .complete, .stop => s
  | _, .stop => { s with phase := .stopped }
  | _, _ => s

/-- Method `start_multi_stage_recording`: counters reset to zero, then
`start_stage 0`. -/
def stageInit (plan : List Stage) : StageRun :=
  startStage { plan := plan, phase := .guidance 0, stageCount := 0, totalCount := 0 } 0

/-- Run the machine from a state over a list of events. -/
def stageRunFrom (s : StageRun) (evs : List StageEv) : StageRun :=
  evs.foldl stageStep s

/-- Run the machine from `start_multi_stage_recording`. -/
def stageRun (plan : List Stage) (evs : List StageEv) : StageRun :=
  stageRunFrom (stageInit plan) evs

/-- A small two-stage plan with targets `[3, 2]`, used to exercise the
sequencer on concrete runs. -/
def demoPlan : List Stage :=
  [⟨"normal_blink", 300, 3⟩, ⟨"half_open", 100, 2⟩]

/-- The stage currently indexed by the phase, when there is one. -/
def currentStageOf (s : StageRun) : Option Stage :=
  match s.phase with
  | .guidance idx => s.plan.get? idx
  | .capturing idx => s.plan.get? idx
  | .stagePause idx => s.plan.get? idx
  | .complete => none
  | .stopped => none

/-- The run-state invariant of the multi-stage machine: the stage counter
is reset on entering a stage's guidance, stays strictly below the target
while the stage timer runs, and stops at the target once the stage
finishes; active phases always index into the plan. -/
def StageInv (s : StageRun) : Prop :=
  match s.phase with
  | .guidance idx => idx < s.plan.length ∧ s.stageCount = 0
  | .capturing idx => ∃ st, s.plan.get? idx = some st ∧ s.stageCount < st.target_count
  | .stagePause idx => ∃ st, s.plan.get? idx = some st ∧ s.stageCount ≤ st.target_count
  | .complete => True
  | .stopped => True

/-! ## The recorder with its frame cache

`stage_capture_image` does not read the stream: it reads the cached
`self.current_image`, which `on_image_received` sets on every frame
arrival and which nothing clears while a recording runs
(recorder_app.py lines 377, 1280).  This layer joins the stage machine
with that cache so that frame *delivery* (a `frameArrived` event) and a
`stage_timer` tick are separate events, as they are in the program. -/

structure RecorderRun where
  run : StageRun
  /-- the cached `self.current_image`, as an opaque frame id -/
  current_image : Option Nat
deriving Repr, DecidableEq

/-- Events of the recorder during a multi-stage recording. -/
inductive RecEv
  /-- a frame arriving from the stream: `on_image_received` caches it and
  — in multi-stage mode — does nothing else. -/
  | frameArrived (img : Nat)
  /-- a `stage_timer` timeout (`stage_capture_image`); `imwriteOk` is
  false when the `cv2.imwrite` call raises (its boolean return is
  ignored either way). -/
  | timerTick (imwriteOk : Bool)
  /-- the voice-guide `finished` signal. -/
  | guidanceDone
  /-- the 2-second single-shot after a completed stage. -/
  | pauseDone
  /-- the user pressing stop. -/
  | stop
deriving Repr, DecidableEq

/-- Whether an event is a frame delivery from the stream. -/
def RecEv.isFrameArrived : RecEv → Bool
  | .frameArrived _ => true
  | _ => false

/-- One step of the recorder: a frame arrival only refreshes the cache;
a timer tick drives the stage machine, capturing exactly when a frame is
cached and the write does not raise; the remaining events are passed
through to the stage machine. -/
def recorderStep (s : RecorderRun) (e : RecEv) : RecorderRun :=
  match e with
  | .frameArrived img => { s with current_image := some img }
  | .timerTick imwriteOk =>
    { s with run := stageStep s.run (.tick (s.current_image.isSome && imwriteOk)) }
  | .guidanceDone => { s with run := stageStep s.run .guidanceDone }
  | .pauseDone => { s with run := stageStep s.run .pauseDone }
  | .stop => { s with run := stageStep s.run .stop }

/-- Run the recorder from a state over a list of events. -/
def recorderRunFrom (s : RecorderRun) (evs : List RecEv) : RecorderRun :=
  evs.foldl recorderStep s

/-! ## Reconnect handling (src/core/base_recorder.py, recorder_app.py)

`on_device_disconnected` is identical in both files; `recorder_app.py`
uses the literal 5000 ms backoff.  `auto_reconnect` is the
`reconnect_timer` timeout slot; it calls `connect_device`, which reads
the same configured address back out of the address field. -/

structure Supervisor where
  reconnect_attempts : Nat
  max_reconnect_attempts : Nat
  is_recording : Bool
  /-- Flag `self._disconnecting`, the re-entrancy guard -/
  disconnecting : Bool
  /-- the configured device address (`self.device_input.text().strip()`) -/
  address : String
deriving Repr, DecidableEq

inductive DisconnectAction
  /-- the `_disconnecting` guard swallowed the event -/
  | ignored
  /-- Action `reconnect_timer.start(backoff_ms)`: a reconnect attempt is scheduled -/
  | scheduleReconnect (backoff_ms : Nat)
  /-- Action `stop_recording()` (when recording) followed by `disconnect_device()` -/
  | forceStop
deriving Repr, DecidableEq

/-- Slot `on_device_disconnected` (recorder_app.py lines 1243-1258): under the
re-entrancy guard, while recording and below the attempt bound, count the
attempt and schedule a reconnect 5000 ms out; otherwise stop any active
recording and tear the client down (`disconnect_device` resets
`reconnect_attempts` to 0). -/
def on_device_disconnected (s : Supervisor) : Supervisor × DisconnectAction :=
  if s.disconnecting then (s, .ignored)
  else if s.is_recording && decide (s.reconnect_attempts < s.max_reconnect_attempts) then
    ({ s with reconnect_attempts := s.reconnect_attempts + 1 }, .scheduleReconnect 5000)
  else
    ({ s with is_recording := false, reconnect_attempts := 0 }, .forceStop)

/-- Slot `auto_reconnect`: when the scheduled timer fires it re-runs
`connect_device` with the same configured address, provided a recording
is still active and the bound has not been passed. -/
def auto_reconnect (s : Supervisor) : Option String :=
  if s.is_recording && decide (s.reconnect_attempts ≤ s.max_reconnect_attempts) then
    some s.address
  else none

/-- Deliver `n` consecutive disconnect events, collecting the action taken
on each. -/
def disconnectTrace : Supervisor → Nat → Supervisor × List DisconnectAction
  | s, 0 => (s, [])
  | s, n + 1 =>
    let (s', a) := on_device_disconnected s
    let (s'', as) := disconnectTrace s' n
    (s'', a :: as)

/-- Whether an action schedules a reconnect. -/
def DisconnectAction.isSchedule : DisconnectAction → Bool
  | .scheduleReconnect _ => true
  | _ => false

/-! ## `WebSocketClient` (src/simple_websocket_client.py) -/

/-- Python `s.replace(pat, rep)` (all occurrences, left to right,
non-overlapping), on character lists with the input length as structural
fuel.  An empty pattern acts as the identity; the patterns used by the
client (`"http://"`, `"https://"`) are never empty. -/
def pyReplaceAllAux (pat rep : List Char) : Nat → List Char → List Char
  | _, [] => []
  | 0, s => s
  | fuel + 1, c :: rest =>
    if pat ≠ [] && pat.isPrefixOf (c :: rest) then
      rep ++ pyReplaceAllAux pat rep fuel (List.drop (pat.length - 1) rest)
    else
      c :: pyReplaceAllAux pat rep fuel rest

def pyReplaceAll (s pat rep : String) : String :=
  ⟨pyReplaceAllAux pat.data rep.data s.data.length s.data⟩

/-- Python `s.strip()`: whitespace removed from both ends. -/
def pyStrip (s : String) : String :=
  ⟨((s.data.dropWhile Char.isWhitespace).reverse.dropWhile Char.isWhitespace).reverse⟩

/-- The scheme normalization at the top of `connect_to_device`:
keep `ws://`/`wss://`, rewrite `http://`→`ws://` and `https://`→`wss://`,
otherwise prepend `ws://`. -/
def normalizeDeviceUrl (address : String) : String :=
  let url := pyStrip address
  if strStartsWith url "ws://" || strStartsWith url "wss://" then url
  else if strStartsWith url "http://" then pyReplaceAll url "http://" "ws://"
  else if strStartsWith url "https://" then pyReplaceAll url "https://" "wss://"
  else "ws://" ++ url

/-- The candidate list built by `connect_to_device`: the normalized URL,
then — unless it already ends in `/ws` — a variant with the `/ws` path
appended (`{url}/ws`, or `{url}ws` when the URL ends in `/`). -/
def urlVariants (address : String) : List String :=
  let url := normalizeDeviceUrl address
  [url] ++
    (if !strEndsWith url "/ws" && !strEndsWith url "/" then [url ++ "/ws"]
     else if strEndsWith url "/" then [url ++ "ws"]
     else [])

structure ClientState where
  url : String
  is_connected_flag : Bool
  is_running : Bool
  url_variants : List String
  current_url_index : Nat
  /-- how many connection threads have been started over the client's life -/
  threads_started : Nat
deriving Repr, DecidableEq

inductive StartAction
  /-- Emission of the set-an-address-first error, early return -/
  | errorNoUrl
  /-- Warning log that the device is already connected, early return -/
  | warnAlreadyConnected
  /-- a new `_run_connection` thread is started -/
  | launchThread
deriving Repr, DecidableEq

/-- Method `WebSocketClient.connect_to_device`: rejects an unset URL, then — only
if `is_connected_flag` is set — warns and returns; in every other state it
computes the URL variants and starts a (further) connection thread. -/
def connect_to_device (st : ClientState) : ClientState × StartAction :=
  if st.url = "" then (st, .errorNoUrl)
  else if st.is_connected_flag then (st, .warnAlreadyConnected)
  else
    ({ st with
        is_running := true
        url_variants := urlVariants st.url
        current_url_index := 0
        threads_started := st.threads_started + 1 },
      .launchThread)

/-- Signals emitted by the connection thread. -/
inductive ClientEmit
  | connectedSig
  | disconnectedSig
  /-- Emission of the all-attempts-failed error after the last variant fails -/
  | errorAllFailed
deriving Repr, DecidableEq

/-- The signal sequence of `_run_connection`/`_websocket_handler` over the
variant list: a failed attempt's `finally` block emits `disconnected`
(the client is still `is_running`), and the last failure additionally
emits the all-attempts-failed error; a successful attempt emits
`connected`, runs the receive loop until the connection closes, emits
`disconnected` from its `finally` block, and breaks out of the loop. -/
def runVariants (ok : String → Bool) : List String → List ClientEmit
  | [] => []
  | v :: rest =>
    if ok v then [.connectedSig, .disconnectedSig]
    else
      (.disconnectedSig :: (if rest.isEmpty then [.errorAllFailed] else [])) ++
        runVariants ok rest

structure RunOutcome where
  emits : List ClientEmit
  finalConnected : Bool
  finalRunning : Bool
deriving Repr, DecidableEq

/-- One whole life of the connection thread: the per-variant signals, and
the outer `finally` clearing `is_connected_flag` and `is_running`. -/
def runConnection (ok : String → Bool) (variants : List String) : RunOutcome :=
  { emits := runVariants ok variants
    finalConnected := false
    finalRunning := false }

/-! ## Frame arrival in the recorder (recorder_app.py `on_image_received`) -/

structure RecvState where
  is_recording : Bool
  is_multi_stage_recording : Bool
  /-- Checkbox state `self.auto_save_checkbox.isChecked()` -/
  auto_save_checked : Bool
  recording_count : Nat
  stage_recording_count : Nat
  /-- the cached last frame, as an opaque id -/
  current_image : Option Nat
deriving Repr, DecidableEq

/-- Slot `PaperTrackerRecorder.on_image_received` for an ndarray payload (what
`WebSocketClient.image_received` always carries): cache the frame, then
auto-save it only in single mode — the multi-stage branch leaves saving
to the `stage_timer` path.  The returned flag records whether
`save_current_image` was invoked (modelled with a successful write; a
failed write would advance no counter either). -/
def on_image_received (st : RecvState) (frame : Nat) : RecvState × Bool :=
  let st' := { st with current_image := some frame }
  if st'.is_recording && st'.auto_save_checked && !st'.is_multi_stage_recording then
    ({ st' with recording_count := st'.recording_count + 1 }, true)
  else
    (st', false)

/-! # Theorems -/

/-- C6: when the encode/write fails — `cv2.imwrite` returning `False` or
raising — `save_image` returns `false`, leaves `image_count` unchanged,
writes nothing, and leaves the folder as it was, so the next successful
save reuses the same counter in its filename; on success it returns
`true` and advances the counter by one. -/
theorem save_image_failure_no_advance (st : SessionState) (ts suffix : String)
    (o : WriteOutcome) :
    (o ≠ .ok →
      (save_image st ts suffix o).returned = false ∧
      (save_image st ts suffix o).state.image_count = st.image_count ∧
      (save_image st ts suffix o).written = none ∧
      (save_image st ts suffix o).state.files = st.files ∧
      ∀ ts' suffix',
        saveImageFilename ts' (save_image st ts suffix o).state.image_count suffix'
          = saveImageFilename ts' st.image_count suffix') ∧
    (o = .ok →
      (save_image st ts suffix o).returned = true ∧
      (save_image st ts suffix o).state.image_count = st.image_count + 1) := by
  cases o <;> simp [save_image]

/-- Witness for `save_image_failure_no_advance` at a concrete failed and a
concrete successful save. -/
theorem save_image_failure_no_advance_witness :
    ((save_image ⟨"u", "e", "d", some 0, 4, []⟩ "t" "" .writeFail).returned = false ∧
      (save_image ⟨"u", "e", "d", some 0, 4, []⟩ "t" "" .writeFail).state.image_count = 4 ∧
      (save_image ⟨"u", "e", "d", some 0, 4, []⟩ "t" "" .writeFail).written = none) ∧
    ((save_image ⟨"u", "e", "d", some 0, 4, []⟩ "t" "" .ok).returned = true ∧
      (save_image ⟨"u", "e", "d", some 0, 4, []⟩ "t" "" .ok).state.image_count = 5) := by
  have hfail :=
    (save_image_failure_no_advance ⟨"u", "e", "d", some 0, 4, []⟩ "t" "" .writeFail).1
      (by decide)
  have hok :=
    (save_image_failure_no_advance ⟨"u", "e", "d", some 0, 4, []⟩ "t" "" .ok).2 rfl
  exact ⟨⟨hfail.1, hfail.2.1, hfail.2.2.1⟩, hok.1, hok.2⟩

/-- C3 counterexample: a successful single-mode save at counter 0 with
empty suffix writes `img_{ts}_000000_240x240.jpg`, not the claimed
`img_{ts}_000000.jpg` — a `_240x240` marker sits between the counter and
the extension. -/
theorem save_image_name_counterexample :
    (save_image ⟨"user", "e", "root/sess", some 0, 0, []⟩
        "20250101_120000_000" "" .ok).written
      = some "root/sess/img_20250101_120000_000_000000_240x240.jpg" ∧
    (save_image ⟨"user", "e", "root/sess", some 0, 0, []⟩
        "20250101_120000_000" "" .ok).written
      ≠ some "root/sess/img_20250101_120000_000_000000.jpg" := by
  decide

/-- C3 (amended): a successful save at counter `n` with suffix `s` writes,
inside the session root folder, a file named exactly
`img_{timestamp}_{n:06d}{s}_240x240.jpg` — the fixed `_240x240` marker
between the suffix and the `.jpg` extension is part of the name. -/
theorem save_image_written_name (st : SessionState) (ts suffix : String) :
    (save_image st ts suffix .ok).written
      = some (st.session_folder ++ "/" ++
          ("img_" ++ ts ++ "_" ++ padZeros 6 st.image_count ++ suffix ++ "_240x240.jpg")) ∧
    (save_image st ts suffix .ok).state.files
      = st.files ++
          ["img_" ++ ts ++ "_" ++ padZeros 6 st.image_count ++ suffix ++ "_240x240.jpg"] := by
  simp [save_image, saveImageFilename]

/-- C2 counterexample: finalizing a 3-image session 30 seconds after its
start (`duration_minutes = 0`) names the archive
`user_3pics_unknown.zip`, which does not end in `0min.zip` as claimed. -/
theorem archive_name_zero_minutes_counterexample :
    (create_package ⟨"user", "e", "f", some 0, 3, ["a.jpg", "b.jpg", "c.jpg"]⟩
        30 true).map PackageResult.zip_filename
      = some "user_3pics_unknown.zip" ∧
    strEndsWith "user_3pics_unknown.zip" "0min.zip" = false ∧
    "user_3pics_unknown.zip" ≠ "user_3pics_0min.zip" := by
  decide

/-- C2 (amended): with a positive whole-minute duration the archive is
named `{username}_{image_count}pics_{duration}min.zip`, where the
duration is the elapsed whole minutes rounded down; but in
`RecordingSession.create_package` a session shorter than one minute
yields `{username}_{image_count}pics_unknown.zip` instead of `0min.zip`.
The `0min.zip` form appears only in the recorder_app packagers (plain and
`eyedata` variants), whose duration string is `unknown` only when no
start time was recorded. -/
theorem archive_filename_format (st : SessionState) (now : Nat)
    (u : String) (c d t : Nat) (hc : st.image_count ≠ 0) :
    ((create_package st now true).map PackageResult.zip_filename
        = some (sessionZipFilename st.username st.image_count
            (durationMinutes st.start_time now))) ∧
    (0 < d → sessionZipFilename u c d
        = u ++ "_" ++ Nat.repr c ++ "pics_" ++ Nat.repr d ++ "min.zip") ∧
    (sessionZipFilename u c 0 = u ++ "_" ++ Nat.repr c ++ "pics_unknown.zip") ∧
    (durationMinutes (some t) now = (now - t) / 60) ∧
    (recorderZipFilename u c (some t) now
        = u ++ "_" ++ Nat.repr c ++ "pics_" ++ Nat.repr ((now - t) / 60) ++ "min.zip") ∧
    (multiStageZipFilename u c (some t) now
        = u ++ "_eyedata_" ++ Nat.repr c ++ "pics_" ++ Nat.repr ((now - t) / 60) ++ "min.zip") := by
  have hmz : ("min.zip" : String) = "min" ++ ".zip" := by decide
  have huz : ("pics_unknown.zip" : String) = "pics_" ++ "unknown" ++ ".zip" := by decide
  refine ⟨by simp [create_package, hc], ?_, ?_, rfl, ?_, ?_⟩
  · intro hd
    rw [hmz]
    simp [sessionZipFilename, sessionDurationStr, hd, String.append_assoc]
  · rw [huz]
    simp [sessionZipFilename, sessionDurationStr, String.append_assoc]
  · rw [hmz]
    simp [recorderZipFilename, recorderDurationStr, String.append_assoc]
  · rw [hmz]
    simp [multiStageZipFilename, recorderDurationStr, String.append_assoc]

/-- Witness for `archive_filename_format` on a concrete 3-image session
two minutes in. -/
theorem archive_filename_format_witness :
    ((3 : Nat) ≠ 0) ∧
    ((create_package ⟨"user", "e", "f", some 0, 3, ["a.jpg"]⟩ 150 true).map
        PackageResult.zip_filename
      = some (sessionZipFilename "user" 3 (durationMinutes (some 0) 150))) ∧
    ((0 : Nat) < 2 ∧ sessionZipFilename "user" 3 2 = "user_3pics_2min.zip") := by
  have h := archive_filename_format ⟨"user", "e", "f", some 0, 3, ["a.jpg"]⟩ 150
    "user" 3 2 0 (by decide)
  exact ⟨by decide, h.1, by decide, h.2.1 (by decide)⟩

/-- C1 counterexample: a session folder holding `a.jpg` and `notes.txt`
is finalized into an archive that lacks `notes.txt` — the packaging walk
filters on the `.jpg` extension, so the archive does not contain exactly
the files that existed in the folder. -/
theorem create_package_exact_files_counterexample :
    (create_package ⟨"user", "e", "f", some 0, 1, ["a.jpg", "notes.txt"]⟩
        30 true).map PackageResult.entries
      = some ["a.jpg", "recording_info.json"] ∧
    "notes.txt" ∈ (["a.jpg", "notes.txt"] : List String) ∧
    "notes.txt" ∉ (["a.jpg", "recording_info.json"] : List String) := by
  decide

/-- C1 (amended): for `image_count > 0` a successful finalize produces an
archive holding exactly the files of the session folder whose names end
in `.jpg` (case-insensitively), with their relative subfolder paths
preserved, plus exactly one `recording_info.json` at archive root; the
session folder is then removed. -/
theorem create_package_roundtrip (st : SessionState) (now : Nat)
    (hc : st.image_count ≠ 0) :
    ∃ r, create_package st now true = some r ∧
      r.entries = st.files.filter (fun f => isJpgFile f) ++ ["recording_info.json"] ∧
      (∀ f ∈ st.files, isJpgFile f = true → f ∈ r.entries) ∧
      (∀ f ∈ r.entries, f = "recording_info.json" ∨ (f ∈ st.files ∧ isJpgFile f = true)) ∧
      r.entries.count "recording_info.json" = 1 ∧
      r.folderRemoved = true := by
  refine ⟨{ zip_filename := sessionZipFilename st.username st.image_count
              (durationMinutes st.start_time now)
            entries := st.files.filter (fun f => isJpgFile f) ++ ["recording_info.json"]
            folderRemoved := true },
    by simp [create_package, hc], rfl, ?_, ?_, ?_, rfl⟩
  · intro f hf hjpg
    exact List.mem_append_left _ (List.mem_filter.mpr ⟨hf, hjpg⟩)
  · intro f hf
    rcases List.mem_append.mp hf with h | h
    · exact Or.inr ⟨(List.mem_filter.mp h).1, (List.mem_filter.mp h).2⟩
    · exact Or.inl (List.mem_singleton.mp h)
  · rw [List.count_append]
    have h0 : List.count "recording_info.json"
        (st.files.filter (fun f => isJpgFile f)) = 0 := by
      refine List.count_eq_zero.mpr ?_
      intro hmem
      have : isJpgFile "recording_info.json" = true := (List.mem_filter.mp hmem).2
      exact absurd this (by decide)
    rw [h0]
    decide

/-- Witness for `create_package_roundtrip` on a concrete two-file session
with a per-stage subfolder path. -/
theorem create_package_roundtrip_witness :
    ((2 : Nat) ≠ 0) ∧
    (∃ r, create_package
        ⟨"user", "e", "f", some 0, 2, ["a.jpg", "stage_1_blink/b.jpg"]⟩ 30 true
        = some r ∧
      r.entries = (["a.jpg", "stage_1_blink/b.jpg"].filter (fun f => isJpgFile f))
          ++ ["recording_info.json"] ∧
      (∀ f ∈ (["a.jpg", "stage_1_blink/b.jpg"] : List String),
          isJpgFile f = true → f ∈ r.entries) ∧
      (∀ f ∈ r.entries, f = "recording_info.json" ∨
          (f ∈ (["a.jpg", "stage_1_blink/b.jpg"] : List String) ∧ isJpgFile f = true)) ∧
      r.entries.count "recording_info.json" = 1 ∧
      r.folderRemoved = true) :=
  ⟨by decide,
    create_package_roundtrip ⟨"user", "e", "f", some 0, 2, ["a.jpg", "stage_1_blink/b.jpg"]⟩
      30 (by decide)⟩

/-- C9 counterexample: with a first `start()` still connecting
(`is_running = true`, one thread launched, not yet connected), a second
`connect_to_device` call is not a no-op — it launches a second connection
thread.  The `is_connected_flag` guard is the only idempotence check. -/
theorem double_start_spawns_thread_counterexample :
    (connect_to_device
        ⟨"ws://192.168.1.50", false, true, ["ws://192.168.1.50"], 0, 1⟩).2
      = .launchThread ∧
    (connect_to_device
        ⟨"ws://192.168.1.50", false, true, ["ws://192.168.1.50"], 0, 1⟩).1.threads_started
      = 2 := by
  decide

/-- C9 (amended): `connect_to_device` is a no-op with a logged warning
exactly when the client is already *connected* (`is_connected_flag`
set); in every other non-torn-down state with a configured URL —
including while a previous `start()` is still connecting — it starts
another connection thread. -/
theorem start_noop_only_when_connected (st : ClientState) (hu : st.url ≠ "") :
    (st.is_connected_flag = true →
      connect_to_device st = (st, .warnAlreadyConnected)) ∧
    (st.is_connected_flag = false →
      (connect_to_device st).2 = .launchThread ∧
      (connect_to_device st).1.threads_started = st.threads_started + 1) := by
  constructor
  · intro hconn
    simp [connect_to_device, hu, hconn]
  · intro hconn
    simp [connect_to_device, hu, hconn]

/-- Witness for `start_noop_only_when_connected`: an already-connected
client ignores the second `start()`; a connecting one launches a second
thread. -/
theorem start_noop_only_when_connected_witness :
    (("ws://a" : String) ≠ "") ∧
    (connect_to_device ⟨"ws://a", true, true, ["ws://a"], 0, 1⟩
      = (⟨"ws://a", true, true, ["ws://a"], 0, 1⟩, .warnAlreadyConnected)) ∧
    ((connect_to_device ⟨"ws://a", false, true, ["ws://a"], 0, 1⟩).2 = .launchThread ∧
      (connect_to_device ⟨"ws://a", false, true, ["ws://a"], 0, 1⟩).1.threads_started = 2) := by
  refine ⟨by decide, ?_, ?_⟩
  · exact (start_noop_only_when_connected
      ⟨"ws://a", true, true, ["ws://a"], 0, 1⟩ (by decide)).1 rfl
  · exact (start_noop_only_when_connected
      ⟨"ws://a", false, true, ["ws://a"], 0, 1⟩ (by decide)).2 rfl

/-- C10: while a multi-stage recording is active, a frame arriving from
the stream only refreshes the cached preview image — the auto-save branch
of `on_image_received` is disabled in multi-stage mode, so neither the
session-global nor the stage-local counter moves, and no save is
triggered from the frame callback (the `stage_timer` capture path is the
only writer of those counters). -/
theorem multi_stage_frames_never_save (st : RecvState) (frame : Nat)
    (h : st.is_multi_stage_recording = true) :
    on_image_received st frame = ({ st with current_image := some frame }, false) ∧
    (on_image_received st frame).1.recording_count = st.recording_count ∧
    (on_image_received st frame).1.stage_recording_count = st.stage_recording_count ∧
    (∀ st' frame', (on_image_received st' frame').1.stage_recording_count
        = st'.stage_recording_count) := by
  refine ⟨?_, ?_, ?_, ?_⟩
  · simp [on_image_received, h]
  · simp [on_image_received, h]
  · simp [on_image_received, h]
  · intro st' frame'
    by_cases hb : st'.is_recording && st'.auto_save_checked && !st'.is_multi_stage_recording
    · simp [on_image_received, hb]
    · simp [on_image_received, hb]

/-- Witness for `multi_stage_frames_never_save` on a concrete multi-stage
recording state. -/
theorem multi_stage_frames_never_save_witness :
    ((⟨true, true, true, 7, 3, none⟩ : RecvState).is_multi_stage_recording = true) ∧
    (on_image_received ⟨true, true, true, 7, 3, none⟩ 42
        = (⟨true, true, true, 7, 3, some 42⟩, false) ∧
      (on_image_received ⟨true, true, true, 7, 3, none⟩ 42).1.recording_count = 7 ∧
      (on_image_received ⟨true, true, true, 7, 3, none⟩ 42).1.stage_recording_count = 3) := by
  have h := multi_stage_frames_never_save ⟨true, true, true, 7, 3, none⟩ 42 rfl
  exact ⟨rfl, h.1, h.2.1, h.2.2.1⟩

/-- After the recording has been force-stopped, further disconnect events
never schedule a reconnect. -/
theorem disconnect_no_sched_after_stop :
    ∀ (n : Nat) (s : Supervisor), s.is_recording = false → s.disconnecting = false →
      (disconnectTrace s n).2.countP DisconnectAction.isSchedule = 0 := by
  intro n
  induction n with
  | zero =>
    intro s h1 h2
    simp [disconnectTrace]
  | succ m ih =>
    intro s h1 h2
    have hstep : on_device_disconnected s
        = ({ s with is_recording := false, reconnect_attempts := 0 }, .forceStop) := by
      simp [on_device_disconnected, h1, h2]
    have hrec := ih { s with is_recording := false, reconnect_attempts := 0 } rfl
      (by simpa using h2)
    simp [disconnectTrace, hstep, DisconnectAction.isSchedule] at hrec ⊢
    exact hrec

/-- C7: with `max_reconnect_attempts = 2` and a recording active, three
consecutive unexpected disconnects produce exactly the action sequence
"schedule a reconnect after the fixed 5000 ms backoff" twice and then a
forced stop of the recording; over any number of further disconnects at
most those two reconnects are ever scheduled, and each scheduled timer
fires `auto_reconnect`, which re-connects using the same configured
address. -/
theorem reconnect_two_attempts_then_stop (addr : String) :
    ((disconnectTrace ⟨0, 2, true, false, addr⟩ 3).2
        = [.scheduleReconnect 5000, .scheduleReconnect 5000, .forceStop]) ∧
    (∀ n, (disconnectTrace ⟨0, 2, true, false, addr⟩ n).2.countP
        DisconnectAction.isSchedule = min n 2) ∧
    (auto_reconnect (on_device_disconnected ⟨0, 2, true, false, addr⟩).1 = some addr) ∧
    (auto_reconnect (on_device_disconnected
        (on_device_disconnected ⟨0, 2, true, false, addr⟩).1).1 = some addr) := by
  refine ⟨?_, ?_, ?_, ?_⟩
  · simp [disconnectTrace, on_device_disconnected]
  · intro n
    match n with
    | 0 => simp [disconnectTrace]
    | 1 => simp [disconnectTrace, on_device_disconnected, DisconnectAction.isSchedule]
    | 2 => simp [disconnectTrace, on_device_disconnected, DisconnectAction.isSchedule]
    | (m + 3) =>
      have htail := disconnect_no_sched_after_stop m ⟨0, 2, false, false, addr⟩ rfl rfl
      simp [disconnectTrace, on_device_disconnected, DisconnectAction.isSchedule, htail]
  · simp [on_device_disconnected, auto_reconnect]
  · simp [on_device_disconnected, auto_reconnect]

/-- The stage machine never changes the plan. -/
theorem stageStep_plan (s : StageRun) (e : StageEv) : (stageStep s e).plan = s.plan := by
  rcases s with ⟨plan, phase, sc, tc⟩
  cases e with
  | tick b =>
    cases phase with
    | capturing idx =>
      cases hget : plan.get? idx with
      | none =>
        simp only [stageStep]
        rw [hget]
      | some st =>
        simp only [stageStep]
        rw [hget]
        cases b <;> simp <;> split <;> rfl
    | guidance idx => rfl
    | stagePause idx => rfl
    | complete => rfl
    | stopped => rfl
  | guidanceDone => cases phase <;> rfl
  | pauseDone =>
    cases phase with
    | stagePause idx =>
      simp only [stageStep, startStage]
      split <;> rfl
    | guidance idx => rfl
    | capturing idx => rfl
    | complete => rfl
    | stopped => rfl
  | stop => cases phase <;> rfl

/-- Preservation: `StageInv` is preserved by every event. -/
theorem stageInv_step (s : StageRun) (e : StageEv)
    (hplan : ∀ st ∈ s.plan, 1 ≤ st.target_count) (h : StageInv s) :
    StageInv (stageStep s e) := by
  rcases s with ⟨plan, phase, sc, tc⟩
  dsimp only at hplan
  cases e with
  | tick b =>
    cases phase with
    | capturing idx =>
      simp only [StageInv] at h
      obtain ⟨st, hget, hlt⟩ := h
      cases b with
      | true =>
        by_cases hfull : st.target_count ≤ sc + 1
        · have hstep : stageStep ⟨plan, .capturing idx, sc, tc⟩ (.tick true)
              = ⟨plan, .stagePause idx, sc + 1, tc + 1⟩ := by
            simp only [stageStep]
            rw [hget]
            simp [hfull]
          rw [hstep]
          exact ⟨st, hget, show sc + 1 ≤ st.target_count by omega⟩
        · have hstep : stageStep ⟨plan, .capturing idx, sc, tc⟩ (.tick true)
              = ⟨plan, .capturing idx, sc + 1, tc + 1⟩ := by
            simp only [stageStep]
            rw [hget]
            simp [hfull]
          rw [hstep]
          exact ⟨st, hget, show sc + 1 < st.target_count by omega⟩
      | false =>
        have hnot : ¬ st.target_count ≤ sc := by
          intro hle
          exact absurd hlt (by omega)
        have hstep : stageStep ⟨plan, .capturing idx, sc, tc⟩ (.tick false)
            = ⟨plan, .capturing idx, sc, tc⟩ := by
          simp only [stageStep]
          rw [hget]
          simp [hnot]
        rw [hstep]
        exact ⟨st, hget, hlt⟩
    | guidance idx => exact h
    | stagePause idx => exact h
    | complete => trivial
    | stopped => trivial
  | guidanceDone =>
    cases phase with
    | guidance idx =>
      simp only [StageInv] at h
      obtain ⟨hlt, hsc⟩ := h
      subst hsc
      have hstep : stageStep ⟨plan, .guidance idx, 0, tc⟩ .guidanceDone
          = ⟨plan, .capturing idx, 0, tc⟩ := rfl
      rw [hstep]
      refine ⟨plan.get ⟨idx, hlt⟩, List.get?_eq_get hlt, ?_⟩
      have := hplan _ (List.get_mem plan idx hlt)
      show 0 < (plan.get ⟨idx, hlt⟩).target_count
      omega
    | capturing idx => exact h
    | stagePause idx => exact h
    | complete => trivial
    | stopped => trivial
  | pauseDone =>
    cases phase with
    | stagePause idx =>
      by_cases hend : plan.length ≤ idx + 1
      · have hstep : stageStep ⟨plan, .stagePause idx, sc, tc⟩ .pauseDone
            = ⟨plan, .complete, sc, tc⟩ := by
          simp [stageStep, startStage, hend]
        rw [hstep]
        trivial
      · have hstep : stageStep ⟨plan, .stagePause idx, sc, tc⟩ .pauseDone
            = ⟨plan, .guidance (idx + 1), 0, tc⟩ := by
          simp [stageStep, startStage, hend]
        rw [hstep]
        refine ⟨?_, rfl⟩
        dsimp only
        omega
    | guidance idx => exact h
    | capturing idx => exact h
    | complete => trivial
    | stopped => trivial
  | stop =>
    cases phase with
    | guidance idx => trivial
    | capturing idx => trivial
    | stagePause idx => trivial
    | complete => trivial
    | stopped => trivial

/-- Running any event list preserves the plan and the invariant. -/
theorem stageRunFrom_inv (evs : List StageEv) :
    ∀ (s : StageRun), (∀ st ∈ s.plan, 1 ≤ st.target_count) → StageInv s →
      StageInv (stageRunFrom s evs) ∧ (stageRunFrom s evs).plan = s.plan := by
  induction evs with
  | nil =>
    intro s _ h
    exact ⟨h, rfl⟩
  | cons e rest ih =>
    intro s hplan h
    have hp := stageStep_plan s e
    have hrec := ih (stageStep s e) (by rw [hp]; exact hplan) (stageInv_step s e hplan h)
    refine ⟨hrec.1, ?_⟩
    show (stageRunFrom (stageStep s e) rest).plan = s.plan
    rw [hrec.2, hp]

/-- The machine's initial state satisfies the invariant. -/
theorem stageInit_inv (plan : List Stage) : StageInv (stageInit plan) := by
  by_cases h : plan.length ≤ 0
  · simp [stageInit, startStage, h, StageInv]
  · simp [stageInit, startStage, h, StageInv]
    omega

/-- Feeding `k + 1` captured frames to an actively capturing stage whose
counter is `k + 1` short of the target drives it exactly to the target
and into the post-stage pause. -/
theorem capture_ticks_fill (st : Stage) (idx : Nat) :
    ∀ (k : Nat) (s : StageRun), s.phase = .capturing idx →
      s.plan.get? idx = some st → s.stageCount + (k + 1) = st.target_count →
      (stageRunFrom s (List.replicate (k + 1) (.tick true))).plan = s.plan ∧
      (stageRunFrom s (List.replicate (k + 1) (.tick true))).phase = .stagePause idx ∧
      (stageRunFrom s (List.replicate (k + 1) (.tick true))).stageCount = st.target_count ∧
      (stageRunFrom s (List.replicate (k + 1) (.tick true))).totalCount
        = s.totalCount + (k + 1) := by
  intro k
  induction k with
  | zero =>
    intro s hphase hget hcount
    rcases s with ⟨plan, phase, sc, tc⟩
    cases hphase
    simp only at hcount
    have hfull : st.target_count ≤ sc + 1 := by omega
    have hstep : stageStep ⟨plan, .capturing idx, sc, tc⟩ (.tick true)
        = ⟨plan, .stagePause idx, sc + 1, tc + 1⟩ := by
      simp only [stageStep]
      rw [hget]
      simp [hfull]
    have hrun : stageRunFrom ⟨plan, .capturing idx, sc, tc⟩
          (List.replicate (0 + 1) (.tick true))
        = ⟨plan, .stagePause idx, sc + 1, tc + 1⟩ := by
      simp only [List.replicate, stageRunFrom, List.foldl]
      exact hstep
    rw [hrun]
    exact ⟨rfl, rfl, show sc + 1 = st.target_count by omega, rfl⟩
  | succ k ih =>
    intro s hphase hget hcount
    rcases s with ⟨plan, phase, sc, tc⟩
    cases hphase
    have hnotfull : ¬ st.target_count ≤ sc + 1 := by
      simp only at hcount
      omega
    have hstep : stageStep ⟨plan, .capturing idx, sc, tc⟩ (.tick true)
        = ⟨plan, .capturing idx, sc + 1, tc + 1⟩ := by
      simp only [stageStep]
      rw [hget]
      simp [hnotfull]
    have hrec := ih ⟨plan, .capturing idx, sc + 1, tc + 1⟩ rfl hget
      (by simp only at hcount ⊢; omega)
    have hrun : stageRunFrom ⟨plan, .capturing idx, sc, tc⟩
          (List.replicate (k + 2) (.tick true))
        = stageRunFrom ⟨plan, .capturing idx, sc + 1, tc + 1⟩
            (List.replicate (k + 1) (.tick true)) := by
      simp only [List.replicate, stageRunFrom, List.foldl, hstep]
    rw [hrun]
    refine ⟨hrec.1, hrec.2.1, hrec.2.2.1, ?_⟩
    rw [hrec.2.2.2]
    simp only
    omega

/-- Starting a multi-stage recording leaves the configured plan in place. -/
theorem stageInit_plan (plan : List Stage) : (stageInit plan).plan = plan := by
  unfold stageInit startStage
  split <;> rfl

/-- Unfolding helpers for event-list runs. -/
theorem stageRunFrom_cons (s : StageRun) (e : StageEv) (l : List StageEv) :
    stageRunFrom s (e :: l) = stageRunFrom (stageStep s e) l := rfl

theorem stageRunFrom_append (s : StageRun) (l1 l2 : List StageEv) :
    stageRunFrom s (l1 ++ l2) = stageRunFrom (stageRunFrom s l1) l2 := by
  simp [stageRunFrom, List.foldl_append]

/-- C4: for every stage plan with positive targets, the sequencer keeps
`current_stage_count ≤ target_count` of the current stage in every
reachable state; from a stage's guidance step, feeding exactly
`target_count` captured frames and letting the post-stage pause elapse
advances to the next stage's guidance — or to `Complete` when the plan is
exhausted; and once complete, every further event (in particular a
frame tick) is a no-op: the state, including both counters (and hence the
number of files written), is unchanged. -/
theorem stage_sequencer_spec (plan : List Stage)
    (hplan : ∀ st ∈ plan, 1 ≤ st.target_count) :
    (∀ evs st, currentStageOf (stageRun plan evs) = some st →
        (stageRun plan evs).stageCount ≤ st.target_count) ∧
    (∀ evs idx st, (stageRun plan evs).phase = .guidance idx →
        plan.get? idx = some st →
        (stageRunFrom (stageRun plan evs)
            (.guidanceDone :: (List.replicate st.target_count (.tick true)
              ++ [.pauseDone]))).phase
          = if plan.length ≤ idx + 1 then .complete else .guidance (idx + 1)) ∧
    (∀ s e, s.phase = .complete → stageStep s e = s) := by
  have hinv : ∀ evs, StageInv (stageRun plan evs) ∧ (stageRun plan evs).plan = plan := by
    intro evs
    have h := stageRunFrom_inv evs (stageInit plan)
      (by rw [stageInit_plan]; exact hplan) (stageInit_inv plan)
    exact ⟨h.1, by rw [stageRun] at *; rw [h.2, stageInit_plan]⟩
  refine ⟨?_, ?_, ?_⟩
  · intro evs st hcur
    obtain ⟨hi, hpl⟩ := hinv evs
    generalize hq : stageRun plan evs = q at hcur hi hpl ⊢
    rcases q with ⟨qp, qph, qsc, qtc⟩
    cases qph with
    | guidance idx =>
      simp only [StageInv] at hi
      simp only [currentStageOf] at hcur
      exact hi.2 ▸ Nat.zero_le _
    | capturing idx =>
      simp only [StageInv] at hi
      obtain ⟨st', hget', hlt'⟩ := hi
      simp only [currentStageOf] at hcur
      have : st = st' := by
        rw [hcur] at hget'
        exact Option.some_inj.mp hget'
      subst this
      exact Nat.le_of_lt hlt'
    | stagePause idx =>
      simp only [StageInv] at hi
      obtain ⟨st', hget', hle'⟩ := hi
      simp only [currentStageOf] at hcur
      have : st = st' := by
        rw [hcur] at hget'
        exact Option.some_inj.mp hget'
      subst this
      exact hle'
    | complete => simp [currentStageOf] at hcur
    | stopped => simp [currentStageOf] at hcur
  · intro evs idx st hphase hget
    obtain ⟨hi, hpl⟩ := hinv evs
    generalize hq : stageRun plan evs = q at hphase hi hpl ⊢
    rcases q with ⟨qp, qph, qsc, qtc⟩
    simp only at hphase hpl
    subst hphase
    subst hpl
    simp only [StageInv] at hi
    obtain ⟨hlt, hsc0⟩ := hi
    subst hsc0
    obtain ⟨k, hk⟩ : ∃ k, st.target_count = k + 1 := by
      have hmem : st ∈ qp := List.get?_mem hget
      have := hplan st hmem
      exact ⟨st.target_count - 1, by omega⟩
    rw [stageRunFrom_cons]
    have hg : stageStep ⟨qp, .guidance idx, 0, qtc⟩ .guidanceDone
        = ⟨qp, .capturing idx, 0, qtc⟩ := rfl
    rw [hg, hk, stageRunFrom_append]
    have htf := capture_ticks_fill st idx k ⟨qp, .capturing idx, 0, qtc⟩ rfl hget
      (by simp only; omega)
    generalize hr : stageRunFrom ⟨qp, .capturing idx, 0, qtc⟩
        (List.replicate (k + 1) (.tick true)) = r at htf ⊢
    rcases r with ⟨rp, rph, rsc, rtc⟩
    obtain ⟨hrp, hrph, hrsc, hrtc⟩ := htf
    simp only at hrp hrph hrsc hrtc
    subst hrp
    subst hrph
    by_cases hend : rp.length ≤ idx + 1
    · have hps : stageStep ⟨rp, .stagePause idx, rsc, rtc⟩ .pauseDone
          = ⟨rp, .complete, rsc, rtc⟩ := by
        simp [stageStep, startStage, hend]
      show (stageStep ⟨rp, .stagePause idx, rsc, rtc⟩ .pauseDone).phase = _
      rw [hps]
      simp [hend]
    · have hps : stageStep ⟨rp, .stagePause idx, rsc, rtc⟩ .pauseDone
          = ⟨rp, .guidance (idx + 1), 0, rtc⟩ := by
        simp [stageStep, startStage, hend]
      show (stageStep ⟨rp, .stagePause idx, rsc, rtc⟩ .pauseDone).phase = _
      rw [hps]
      simp [hend]
  · intro s e hp
    rcases s with ⟨p0, ph0, a0, b0⟩
    simp only at hp
    subst hp
    cases e <;> rfl

/-- Witness for `stage_sequencer_spec` on the `[3, 2]` plan, together with
the concrete run it implies: guidance, 3 frames, pause, guidance, 2
frames, pause reaches `Complete`, and a further frame changes nothing. -/
theorem stage_sequencer_spec_witness :
    (∀ st ∈ demoPlan, 1 ≤ st.target_count) ∧
    ((∀ evs st, currentStageOf (stageRun demoPlan evs) = some st →
        (stageRun demoPlan evs).stageCount ≤ st.target_count) ∧
      (∀ evs idx st, (stageRun demoPlan evs).phase = .guidance idx →
          demoPlan.get? idx = some st →
          (stageRunFrom (stageRun demoPlan evs)
              (.guidanceDone :: (List.replicate st.target_count (.tick true)
                ++ [.pauseDone]))).phase
            = if demoPlan.length ≤ idx + 1 then .complete
              else .guidance (idx + 1)) ∧
      (∀ s e, s.phase = .complete → stageStep s e = s)) ∧
    ((stageRun demoPlan
        [.guidanceDone, .tick true, .tick true, .tick true, .pauseDone,
          .guidanceDone, .tick true, .tick true, .pauseDone]).phase = .complete) ∧
    (stageRun demoPlan
        [.guidanceDone, .tick true, .tick true, .tick true, .pauseDone,
          .guidanceDone, .tick true, .tick true, .pauseDone, .tick true]
      = stageRun demoPlan
        [.guidanceDone, .tick true, .tick true, .tick true, .pauseDone,
          .guidanceDone, .tick true, .tick true, .pauseDone]) :=
  ⟨by decide, stage_sequencer_spec demoPlan (by decide), by decide, by decide⟩

/-- Unfolding helper for recorder-event runs. -/
theorem recorderRunFrom_cons (s : RecorderRun) (e : RecEv) (l : List RecEv) :
    recorderRunFrom s (e :: l) = recorderRunFrom (recorderStep s e) l := rfl

/-- C5 counterexample: a stage of the `[3, 2]` plan with a stale cached
frame (`current_image` was set before the source went silent and nothing
ever clears it) is completed by three bare `stage_timer` ticks even
though the trace delivers ZERO frames and contains no stop:
`stage_capture_image` re-saves the cached frame on every tick, the
counter reaches the target 3, and the stage advances into its
post-stage pause.  Completion here is time-driven, not
frame-count-driven, refuting the claim. -/
theorem stalled_stage_completes_counterexample :
    (∀ e ∈ ([.timerTick true, .timerTick true, .timerTick true] : List RecEv),
        RecEv.isFrameArrived e = false ∧ e ≠ .stop) ∧
    (recorderRunFrom ⟨⟨demoPlan, .capturing 0, 0, 0⟩, some 7⟩
        [.timerTick true, .timerTick true, .timerTick true]).run.phase
      = .stagePause 0 ∧
    (recorderRunFrom ⟨⟨demoPlan, .capturing 0, 0, 0⟩, some 7⟩
        [.timerTick true, .timerTick true, .timerTick true]).run.stageCount = 3 := by
  decide

/-- C5 (amended): only a stage during which NO frame has ever been cached
(`current_image` is `None` — the source delivered nothing since the
recorder started) never completes on its own: timer ticks, guidance and
pause events then leave the capturing state, counter and cache
completely unchanged, and the `stop` event is what ends the stalled
stage.  With a stale frame cached before the silence, the stage timer
keeps re-saving it and the stage completes by time alone (see the
counterexample), so in that case completion is time-driven. -/
theorem stalled_stage_no_cached_frame (s : RecorderRun) (idx : Nat) (st : Stage)
    (h0 : s.current_image = none)
    (h1 : s.run.phase = .capturing idx) (h2 : s.run.plan.get? idx = some st)
    (h3 : s.run.stageCount < st.target_count) :
    (∀ evs : List RecEv, (∀ e ∈ evs, RecEv.isFrameArrived e = false ∧ e ≠ .stop) →
        recorderRunFrom s evs = s) ∧
    (recorderStep s .stop).run.phase = .stopped := by
  obtain ⟨run, cache⟩ := s
  simp only at h0 h1 h2 h3
  subst h0
  rcases run with ⟨plan, phase, sc, tc⟩
  simp only at h1 h2 h3
  subst h1
  have hrun : stageStep ⟨plan, .capturing idx, sc, tc⟩ (.tick false)
      = ⟨plan, .capturing idx, sc, tc⟩ := by
    simp only [stageStep]
    rw [h2]
    have hnot : ¬ st.target_count ≤ sc := by omega
    simp [hnot]
  have hfix : ∀ e : RecEv, RecEv.isFrameArrived e = false → e ≠ .stop →
      recorderStep ⟨⟨plan, .capturing idx, sc, tc⟩, none⟩ e
        = ⟨⟨plan, .capturing idx, sc, tc⟩, none⟩ := by
    intro e he hs
    cases e with
    | frameArrived img => simp [RecEv.isFrameArrived] at he
    | timerTick imwriteOk =>
      show (⟨stageStep ⟨plan, .capturing idx, sc, tc⟩ (.tick false), none⟩ : RecorderRun)
        = ⟨⟨plan, .capturing idx, sc, tc⟩, none⟩
      rw [hrun]
    | guidanceDone => rfl
    | pauseDone => rfl
    | stop => exact absurd rfl hs
  constructor
  · intro evs hevs
    induction evs with
    | nil => rfl
    | cons e rest ih =>
      have he := hevs e (List.mem_cons_self e rest)
      rw [recorderRunFrom_cons, hfix e he.1 he.2]
      exact ih (fun e' he' => hevs e' (List.mem_cons_of_mem _ he'))
  · rfl

/-- Witness for `stalled_stage_no_cached_frame`: a mid-stage state of the
`[3, 2]` plan with one capture logged but an empty frame cache ignores
ticks, guidance and pause events, and leaves only through `stop`. -/
theorem stalled_stage_no_cached_frame_witness :
    ((⟨⟨demoPlan, .capturing 0, 1, 1⟩, none⟩ : RecorderRun).current_image = none) ∧
    ((⟨⟨demoPlan, .capturing 0, 1, 1⟩, none⟩ : RecorderRun).run.phase = .capturing 0) ∧
    ((⟨⟨demoPlan, .capturing 0, 1, 1⟩, none⟩ : RecorderRun).run.plan.get? 0
        = some ⟨"normal_blink", 300, 3⟩) ∧
    ((⟨⟨demoPlan, .capturing 0, 1, 1⟩, none⟩ : RecorderRun).run.stageCount
        < (⟨"normal_blink", 300, 3⟩ : Stage).target_count) ∧
    ((∀ evs : List RecEv, (∀ e ∈ evs, RecEv.isFrameArrived e = false ∧ e ≠ .stop) →
        recorderRunFrom ⟨⟨demoPlan, .capturing 0, 1, 1⟩, none⟩ evs
          = ⟨⟨demoPlan, .capturing 0, 1, 1⟩, none⟩) ∧
      (recorderStep ⟨⟨demoPlan, .capturing 0, 1, 1⟩, none⟩ .stop).run.phase
        = .stopped) :=
  ⟨rfl, rfl, by decide, by decide,
    stalled_stage_no_cached_frame ⟨⟨demoPlan, .capturing 0, 1, 1⟩, none⟩ 0
      ⟨"normal_blink", 300, 3⟩ rfl rfl (by decide) (by decide)⟩

/-- C8 counterexample: the bare host `"ws"` has no scheme and no path
segment, yet its normalized form `ws://ws` already ends in `/ws`, so
`connect_to_device` builds only ONE candidate — the claimed second
candidate `ws://ws/ws` is never tried. -/
theorem single_candidate_counterexample :
    strContainsChar "ws" '/' = false ∧
    urlVariants "ws" = ["ws://ws"] ∧
    ¬ 2 ≤ (urlVariants "ws").length := by
  decide

/-- A prefix containing `/` never begins an address containing no `/`. -/
theorem no_slash_not_startsWith (addr pre : String) (hpre : ('/' : Char) ∈ pre.data)
    (h1 : ('/' : Char) ∉ addr.data) : strStartsWith addr pre = false := by
  cases hb : strStartsWith addr pre with
  | false => rfl
  | true =>
    have hb' : pre.data.isPrefixOf addr.data = true := hb
    exact absurd (List.IsPrefix.subset (List.isPrefixOf_iff_prefix.mp hb') hpre) h1

/-- An address with no `/` and no surrounding whitespace gets the plain
`ws://` scheme prepended. -/
theorem normalize_no_scheme (addr : String) (h0 : pyStrip addr = addr)
    (h1 : ('/' : Char) ∉ addr.data) :
    normalizeDeviceUrl addr = "ws://" ++ addr := by
  simp only [normalizeDeviceUrl]
  rw [h0]
  rw [no_slash_not_startsWith addr "ws://" (by decide) h1,
    no_slash_not_startsWith addr "wss://" (by decide) h1,
    no_slash_not_startsWith addr "http://" (by decide) h1,
    no_slash_not_startsWith addr "https://" (by decide) h1]
  simp

/-- The URL `ws://{addr}` ends in `/ws` only for the bare host `"ws"`. -/
theorem not_endsWith_slash_ws (addr : String)
    (h1 : ('/' : Char) ∉ addr.data) (h2 : addr ≠ "") (h3 : addr ≠ "ws") :
    strEndsWith ("ws://" ++ addr) "/ws" = false := by
  have hdata : addr.data = addr.data.reverse.reverse := (List.reverse_reverse _).symm
  have hrev : ("ws://" ++ addr).data.reverse
      = addr.data.reverse ++ ['/', '/', ':', 's', 'w'] := by
    rw [String.data_append, List.reverse_append]
    congr 1
  have hsuf : strEndsWith ("ws://" ++ addr) "/ws"
      = List.isPrefixOf ['s', 'w', '/']
          (addr.data.reverse ++ ['/', '/', ':', 's', 'w']) := by
    show List.isSuffixOf "/ws".data ("ws://" ++ addr).data = _
    unfold List.isSuffixOf
    rw [hrev]
    congr 1
  rw [hsuf]
  generalize hrev2 : addr.data.reverse = rev at hdata
  rcases rev with _ | ⟨c1, rest1⟩
  · exact absurd (String.ext (by rw [hdata]; rfl)) h2
  · rcases rest1 with _ | ⟨c2, rest2⟩
    · simp [List.isPrefixOf]
    · rcases rest2 with _ | ⟨c3, rest3⟩
      · by_cases hc1 : c1 = 's'
        · by_cases hc2 : c2 = 'w'
          · exfalso
            apply h3
            apply String.ext
            rw [hdata, hc1, hc2]
            rfl
          · simp [List.isPrefixOf, beq_iff_eq]
            intro _ h
            exact absurd h.symm hc2
        · simp [List.isPrefixOf, beq_iff_eq]
          intro h
          exact absurd h.symm hc1
      · by_cases hc3 : c3 = '/'
        · exfalso
          apply h1
          rw [hdata, hc3]
          simp
        · simp [List.isPrefixOf, beq_iff_eq]
          intro _ _ h
          exact absurd h.symm hc3

/-- The URL `ws://{addr}` never ends in `/` for a nonempty address with no `/`. -/
theorem not_endsWith_slash (addr : String)
    (h1 : ('/' : Char) ∉ addr.data) (h2 : addr ≠ "") :
    strEndsWith ("ws://" ++ addr) "/" = false := by
  have hdata : addr.data = addr.data.reverse.reverse := (List.reverse_reverse _).symm
  have hrev : ("ws://" ++ addr).data.reverse
      = addr.data.reverse ++ ['/', '/', ':', 's', 'w'] := by
    rw [String.data_append, List.reverse_append]
    congr 1
  have hsuf : strEndsWith ("ws://" ++ addr) "/"
      = List.isPrefixOf ['/'] (addr.data.reverse ++ ['/', '/', ':', 's', 'w']) := by
    show List.isSuffixOf "/".data ("ws://" ++ addr).data = _
    unfold List.isSuffixOf
    rw [hrev]
    congr 1
  rw [hsuf]
  generalize hrev2 : addr.data.reverse = rev at hdata
  rcases rev with _ | ⟨c1, rest1⟩
  · exact absurd (String.ext (by rw [hdata]; rfl)) h2
  · by_cases hc1 : c1 = '/'
    · exfalso
      apply h1
      rw [hdata, hc1]
      simp
    · simp [List.isPrefixOf, beq_iff_eq]
      intro h
      exact absurd h.symm hc1

/-- When every candidate fails, the loop emits the all-attempts-failed
error. -/
theorem runVariants_all_fail (ok : String → Bool) :
    ∀ (vs : List String), vs ≠ [] → (∀ v ∈ vs, ok v = false) →
      ClientEmit.errorAllFailed ∈ runVariants ok vs := by
  intro vs
  induction vs with
  | nil => intro h; exact absurd rfl h
  | cons v rest ih =>
    intro _ hall
    have hv : ok v = false := hall v (List.mem_cons_self v rest)
    by_cases hrest : rest = []
    · subst hrest
      simp [runVariants, hv]
    · have hmem := ih hrest (fun v' hv' => hall v' (List.mem_cons_of_mem _ hv'))
      simp [runVariants, hv, hrest]
      exact hmem

/-- C8 (amended): for every user-supplied address with no scheme and no
path segment (no `/` at all), no surrounding whitespace — and other than
the literal host `"ws"`, whose normalized form already ends in `/ws` —
`connect_to_device` builds exactly the two ordered candidates
`ws://{addr}` then `ws://{addr}/ws`, the bare one first; and whenever
every candidate in the list fails, the connection thread surfaces the
all-attempts-failed error and leaves `is_connected()` false. -/
theorem url_candidates_and_connect_failed (addr : String)
    (h0 : pyStrip addr = addr) (h1 : ('/' : Char) ∉ addr.data)
    (h2 : addr ≠ "") (h3 : addr ≠ "ws") :
    urlVariants addr = ["ws://" ++ addr, "ws://" ++ addr ++ "/ws"] ∧
    (∀ (ok : String → Bool) (vs : List String), vs ≠ [] →
        (∀ v ∈ vs, ok v = false) →
        ClientEmit.errorAllFailed ∈ (runConnection ok vs).emits ∧
        (runConnection ok vs).finalConnected = false) := by
  constructor
  · simp only [urlVariants]
    rw [normalize_no_scheme addr h0 h1]
    rw [not_endsWith_slash_ws addr h1 h2 h3, not_endsWith_slash addr h1 h2]
    simp
  · intro ok vs hne hall
    exact ⟨runVariants_all_fail ok vs hne hall, rfl⟩

/-- Witness for `url_candidates_and_connect_failed` at the spec's own
scenario address `192.168.1.50`, with every candidate failing. -/
theorem url_candidates_and_connect_failed_witness :
    (pyStrip "192.168.1.50" = "192.168.1.50" ∧
      ('/' : Char) ∉ "192.168.1.50".data ∧
      ("192.168.1.50" : String) ≠ "" ∧ ("192.168.1.50" : String) ≠ "ws") ∧
    (urlVariants "192.168.1.50"
        = ["ws://192.168.1.50", "ws://192.168.1.50/ws"] ∧
      (∀ (ok : String → Bool) (vs : List String), vs ≠ [] →
          (∀ v ∈ vs, ok v = false) →
          ClientEmit.errorAllFailed ∈ (runConnection ok vs).emits ∧
          (runConnection ok vs).finalConnected = false)) :=
  ⟨⟨by decide, by decide, by decide, by decide⟩,
    url_candidates_and_connect_failed "192.168.1.50"
      (by decide) (by decide) (by decide) (by decide)⟩

end EyeTracker
